import Mathlib

/-!
Verification of the job-recommendation and agentic-RAG core of the
"Agentic AI Driven Automated Approach for Job Applications and Resume
Customization" repository, shallowly embedded in Lean 4.

The embedding follows `backend/app/services/job_recommendation_service.py`
and `backend/app/services/agentic_rag_service.py`.  Python strings are
Lean `String`s, Python substring tests (`a in b`) become `substrB`,
Python dict/list structures become Lean structures and lists, network
calls and LLM calls become explicit oracle parameters of type
`Except`/`String`, and raised exceptions become `Except.error` values.
-/

/-- Scan a character list for an occurrence of `n` as a contiguous run. -/
def substrAux (n : List Char) : List Char → Bool
  | [] => n.isEmpty
  | h :: t => n.isPrefixOf (h :: t) || substrAux n t

/-- Python's `needle in haystack` substring test on strings. -/
def substrB (needle hay : String) : Bool :=
  substrAux needle.toList hay.toList

/-- Python's `str.lower()` (ASCII range, which covers all strings this
service manipulates). -/
def pyLower (s : String) : String :=
  ⟨s.toList.map Char.toLower⟩

/-- Python's `str.strip()`: remove leading and trailing whitespace. -/
def pyStrip (s : String) : String :=
  ⟨((s.toList.dropWhile Char.isWhitespace).reverse.dropWhile Char.isWhitespace).reverse⟩

/-- Python truthiness of an optional string credential (`not KEY` is true
when the variable is unset or the empty string). -/
def pyFalsy (k : Option String) : Bool :=
  k.getD "" = ""

/-- A normalized job posting as produced by the three adapters
(`title/company/location/description/apply_link/posted_date/source`). -/
structure Job where
  title : String
  company : String
  location : String
  description : String
  apply_link : String
  posted_date : String
  source : String
  deriving Repr, DecidableEq

/-- A job posting after `rank_jobs_by_relevance` has attached
`matched_skills` and `relevance_score`. -/
structure ScoredJob where
  job : Job
  matched_skills : List String
  relevance_score : Nat
  deriving Repr, DecidableEq

/-- The user profile built by `extract_user_profile`. -/
structure Profile where
  skills : List String
  experience_years : Nat
  education_level : String
  preferred_locations : List String
  job_titles : List String
  deriving Repr, DecidableEq

/-- The fixed `synonyms` table of `rank_jobs_by_relevance`, in source order. -/
def synonymsTable : List (String × List String) :=
  [("python", ["python", "pandas", "numpy", "fastapi", "flask"]),
   ("docker", ["docker", "container", "kubernetes", "k8s"]),
   ("machine learning", ["ml", "machine learning", "deep learning", "neural"]),
   ("ai", ["ai", "llm", "rag", "gpt", "bert"]),
   ("nlp", ["nlp", "transformer", "token"]),
   ("cloud", ["aws", "azure", "gcp", "cloud"]),
   ("database", ["postgres", "mysql", "mongodb", "sql"])]

/-- The fuzzy-match loop: for each `(key, words)` group, if any synonym
word occurs in the text, record `key` once and add 5 points once (the
Python inner loop `break`s after the first hit). -/
def fuzzyScan (text : String) : List (String × List String) → List String × Nat
  | [] => ([], 0)
  | (key, words) :: rest =>
      let r := fuzzyScan text rest
      if words.any (fun w => substrB w text) then (key :: r.1, r.2 + 5) else r

/-- The per-job body of `rank_jobs_by_relevance`: search text is the
lowercased `title ++ " " ++ description`; exact skill matches are worth
10 each (over the *set* of profile skills), fuzzy concept groups 5 each,
and inferred-title hits against the job title 15 each. -/
def scoreJob (profile : Profile) (job : Job) : ScoredJob :=
  let text := pyLower (job.title ++ " " ++ job.description)
  let exact := profile.skills.dedup.filter (fun s => substrB s text)
  let fz := fuzzyScan text synonymsTable
  let titleHits := profile.job_titles.filter
    (fun t => substrB (pyLower t) (pyLower job.title))
  { job := job
    matched_skills := (exact ++ fz.1).dedup
    relevance_score := 10 * exact.length + fz.2 + 15 * titleHits.length }

/-- Stable descending insertion used to model Python's stable
`sorted(jobs, key=relevance_score, reverse=True)`: an element coming
later in the input is placed after every already-placed element of
greater *or equal* score. -/
def insertDesc (x : ScoredJob) : List ScoredJob → List ScoredJob
  | [] => [x]
  | y :: ys =>
      if y.relevance_score ≤ x.relevance_score then x :: y :: ys
      else y :: insertDesc x ys

/-- Stable sort, descending by `relevance_score` (Python's `sorted` with
`reverse=True` is stable: equal-score records keep input order). -/
def sortDesc : List ScoredJob → List ScoredJob
  | [] => []
  | x :: xs => insertDesc x (sortDesc xs)

/-- `rank_jobs_by_relevance`: score every job against the profile, then
sort descending by `relevance_score` with a stable sort. -/
def rank_jobs_by_relevance (jobs : List Job) (profile : Profile) : List ScoredJob :=
  sortDesc (jobs.map (scoreJob profile))

/-! ### Aggregator / deduplicator (`get_recommended_jobs`, lines 270-276) -/

/-- The composite dedup key `(job["title"].lower(), job["company"].lower())`. -/
def dedupeKey (j : Job) : String × String :=
  (pyLower j.title, pyLower j.company)

/-- The dict-building loop: a posting is kept iff its key has not been
seen before (Python dicts preserve insertion order, so output order is
first-occurrence order). -/
def dedupeAux (seen : List (String × String)) : List Job → List Job
  | [] => []
  | j :: js =>
      if dedupeKey j ∈ seen then dedupeAux seen js
      else j :: dedupeAux (dedupeKey j :: seen) js

/-- `list(unique.values())` after the first-wins dict construction. -/
def dedupeJobs (jobs : List Job) : List Job :=
  dedupeAux [] jobs

/-! ### Profile extraction (`extract_user_profile`) -/

/-- A Python value in a skill-bearing list: a string, or anything else
(dropped by the `isinstance(s, str)` filter). -/
inductive PyVal where
  | str (s : String)
  | nonstr
  deriving Repr, DecidableEq

/-- One entry of `user_data["projects"]`. -/
structure UDProject where
  title : String
  technologies : List PyVal
  deriving Repr

/-- One entry of `user_data["experience"]`. -/
structure UDExperience where
  items : List String
  deriving Repr

/-- One entry of `user_data["education"]` (`degree` may be absent). -/
structure UDEducation where
  degree : Option String
  deriving Repr

/-- The `user_data` dictionary fed to `extract_user_profile`. -/
structure UserData where
  languages : List PyVal
  tools : List PyVal
  coursework : List PyVal
  projects : List UDProject
  experience : List UDExperience
  education : List UDEducation
  deriving Repr

/-- Helper for Python's whitespace `str.split()`. -/
def splitWSAux (acc : List Char) : List Char → List (List Char)
  | [] => [acc.reverse]
  | c :: cs =>
      if c.isWhitespace then acc.reverse :: splitWSAux [] cs
      else splitWSAux (c :: acc) cs

/-- Python's `str.split()` with no argument: whitespace-separated words,
empty chunks dropped. -/
def pySplitWS (s : String) : List String :=
  ((splitWSAux [] s.toList).filter (fun w => ¬ w.isEmpty)).map fun w => ⟨w⟩

/-- Python `set.update(xs)` on an insertion-ordered model of a set. -/
def pySetUpdate (acc : List String) (new : List String) : List String :=
  acc ++ new.filter (fun t => ¬ acc.contains t)

/-- The three keyword groups used to infer job titles from one project
title (lines 84-89 of the service). -/
def inferTitlesStep (acc : List String) (p : UDProject) : List String :=
  let t := pyLower p.title
  let a1 :=
    if ["ml", "machine learning", "data"].any (fun x => substrB x t) then
      pySetUpdate acc ["ML Engineer", "Data Scientist"]
    else acc
  let a2 :=
    if ["ai", "nlp", "rag", "llm", "langchain"].any (fun x => substrB x t) then
      pySetUpdate a1 ["AI Engineer", "NLP Engineer"]
    else a1
  if ["full stack", "backend", "web"].any (fun x => substrB x t) then
    pySetUpdate a2 ["Software Engineer", "Backend Engineer"]
  else a2

/-- The `inferred_titles` set after scanning every project. -/
def inferredTitles (ps : List UDProject) : List String :=
  ps.foldl inferTitlesStep []

/-- `extract_user_profile`: skills from explicit lists, project
technologies and long experience-bullet words (lowercased, set-collapsed,
non-strings dropped); `experience_years` is the entry count; job titles
are inferred from project titles with a fixed fallback pair. -/
def extract_user_profile (u : UserData) : Profile :=
  let rawSkills :=
    u.languages ++ u.tools ++ u.coursework
      ++ (u.projects.map (·.technologies)).flatten
      ++ (((u.experience.map (·.items)).flatten.map
            (fun item => (pySplitWS item).filter (fun w => 3 < w.length))).flatten.map
          PyVal.str)
  let skills := (rawSkills.filterMap fun v =>
    match v with
    | .str s => some (pyLower s)
    | .nonstr => none).dedup
  let inferred := inferredTitles u.projects
  { skills := skills
    experience_years := u.experience.length
    education_level :=
      match u.education with
      | [] => ""
      | e :: _ => e.degree.getD "B.Tech"
    preferred_locations := ["Remote", "India"]
    job_titles :=
      if inferred.isEmpty then ["Software Engineer", "AI Engineer"] else inferred }

/-! ### Job source adapters -/

/-- One record of the JSearch response's `data` array (fields the adapter
reads, already defaulted to `""` by `dict.get`). -/
structure JSearchRawJob where
  job_title : String
  employer_name : String
  job_city : String
  job_country : String
  job_description : String
  job_apply_link : String
  job_posted_at_datetime_utc : String
  deriving Repr, DecidableEq

/-- Python's `a or b` on strings already defaulted to `""`. -/
def pyOrStr (a b : String) : String :=
  if a = "" then b else a

/-- `search_jobs_jsearch`: gated on `RAPIDAPI_KEY`; the transport/parse
outcome is the `fetch` oracle; any raised error is caught and mapped to
`[]`.  The second component records whether a network call was attempted. -/
def search_jobs_jsearch (rapidapi_key : Option String)
    (fetch : Except String (List JSearchRawJob)) : List Job × Bool :=
  if pyFalsy rapidapi_key then ([], false)
  else
    match fetch with
    | .error _ => ([], true)
    | .ok raws =>
        (raws.map (fun r =>
          { title := r.job_title
            company := r.employer_name
            location := pyOrStr r.job_city r.job_country
            description := r.job_description
            apply_link := r.job_apply_link
            posted_date := r.job_posted_at_datetime_utc
            source := "JSearch" }), true)

/-- One record of the RemoteOK response array (`location` may be absent,
defaulted to `"Remote"`). -/
structure RemoteOKRawJob where
  position : String
  company : String
  location : Option String
  description : String
  url : String
  date : String
  deriving Repr, DecidableEq

/-- `search_jobs_remoteok`: no credential gate; drops the metadata head
entry, keeps postings whose title contains the keyword; any raised error
is caught and mapped to `[]`. -/
def search_jobs_remoteok (keywords : String)
    (fetch : Except String (List RemoteOKRawJob)) : List Job :=
  match fetch with
  | .error _ => []
  | .ok raws =>
      ((raws.drop 1).filter
        (fun r => substrB (pyLower keywords) (pyLower r.position))).map fun r =>
        { title := r.position
          company := r.company
          location := r.location.getD "Remote"
          description := r.description
          apply_link := r.url
          posted_date := r.date
          source := "RemoteOK" }

/-- One record of the Adzuna response's `results` array (nested
`display_name` fields flattened). -/
structure AdzunaRawJob where
  title : String
  company_display_name : String
  location_display_name : String
  description : String
  redirect_url : String
  created : String
  deriving Repr, DecidableEq

/-- `search_jobs_adzuna`: gated on both Adzuna credentials; any raised
error is caught and mapped to `[]`.  The second component records whether
a network call was attempted. -/
def search_jobs_adzuna (app_id api_key : Option String)
    (fetch : Except String (List AdzunaRawJob)) : List Job × Bool :=
  if pyFalsy app_id || pyFalsy api_key then ([], false)
  else
    match fetch with
    | .error _ => ([], true)
    | .ok raws =>
        (raws.map (fun r =>
          { title := r.title
            company := r.company_display_name
            location := r.location_display_name
            description := r.description
            apply_link := r.redirect_url
            posted_date := r.created
            source := "Adzuna" }), true)

/-! ### Job cache (`save_jobs_cache` / `load_jobs_cache`) -/

/-- The single-slot cache document `{timestamp, jobs}`.  Time is modelled
as integer seconds. -/
structure CacheFile where
  timestamp : Int
  jobs : List ScoredJob
  deriving Repr, DecidableEq

/-- `save_jobs_cache`: overwrite the cache with the jobs and the current
time. -/
def save_jobs_cache (now : Int) (jobs : List ScoredJob) : CacheFile :=
  { timestamp := now, jobs := jobs }

/-- What reading the cache file can yield: no file, a file `json.load`
cannot parse, or a parsed document. -/
inductive CacheRead where
  | missing
  | unreadable
  | content (c : CacheFile)
  deriving Repr

/-- `load_jobs_cache`: a missing file yields `[]`; an unreadable file
makes `json.load` raise (there is no try/except around it); a parsed
document yields its jobs unless strictly older than `max_age_hours`. -/
def load_jobs_cache (fs : CacheRead) (now : Int) (max_age_hours : Int) :
    Except String (List ScoredJob) :=
  match fs with
  | .missing => .ok []
  | .unreadable => .error "json.load raised"
  | .content c =>
      if 3600 * max_age_hours < now - c.timestamp then .ok []
      else .ok c.jobs

/-! ### Top-level `get_recommended_jobs` -/

/-- Credentials and per-title transport oracles for the three adapters. -/
structure FetchEnv where
  rapidapi_key : Option String
  adzuna_app_id : Option String
  adzuna_api_key : Option String
  jsearch : String → Except String (List JSearchRawJob)
  remoteok : String → Except String (List RemoteOKRawJob)
  adzuna : String → Except String (List AdzunaRawJob)

/-- A raised Python error that escapes a function. -/
inductive PyError where
  | nameError (n : String)
  deriving Repr, DecidableEq

/-- Module-level names bound in `job_recommendation_service.py`
(imports, loaded keys, the class). -/
def jobRecModuleNames : List String :=
  ["os", "json", "requests", "List", "Dict", "datetime", "timedelta",
   "load_dotenv", "RAPIDAPI_KEY", "ADZUNA_APP_ID", "ADZUNA_API_KEY",
   "JobRecommendationService"]

/-- Python builtins the module's code could resolve a bare name against. -/
def pythonBuiltinNames : List String :=
  ["print", "len", "set", "list", "sorted", "open", "any", "isinstance",
   "str", "range", "dict", "tuple", "getattr"]

/-- Local names bound in the body of `get_recommended_jobs`. -/
def getRecommendedJobsLocals : List String :=
  ["self", "user_data", "max_results", "profile", "all_jobs", "title",
   "unique", "job", "key", "ranked"]

/-- Python name resolution for a bare name inside `get_recommended_jobs`:
locals, then module globals, then builtins; otherwise `NameError`. -/
def lookupName (locals : List String) (n : String) : Except PyError Unit :=
  if locals.contains n || jobRecModuleNames.contains n ||
      pythonBuiltinNames.contains n then .ok ()
  else .error (.nameError n)

/-- The fetch loop over the top-3 inferred titles, concatenating the
three adapters' results per title. -/
def fetchAllJobs (env : FetchEnv) (titles : List String) : List Job :=
  titles.foldl (fun acc title =>
    acc ++ (search_jobs_jsearch env.rapidapi_key (env.jsearch title)).1
        ++ search_jobs_remoteok title (env.remoteok title)
        ++ (search_jobs_adzuna env.adzuna_app_id env.adzuna_api_key
              (env.adzuna title)).1) []

/-- `get_recommended_jobs`: extract the profile, fetch for the top three
titles, dedupe, rank, save the cache, then evaluate `st.write(...)` —
`st` is bound nowhere, so name resolution decides what happens next. -/
def get_recommended_jobs (env : FetchEnv) (now : Int) (user_data : UserData)
    (max_results : Nat) : Except PyError (List ScoredJob) := do
  let profile := extract_user_profile user_data
  let all_jobs := fetchAllJobs env (profile.job_titles.take 3)
  let unique := dedupeJobs all_jobs
  let ranked := rank_jobs_by_relevance unique profile
  let _cache := save_jobs_cache now (ranked.take max_results)
  let _ ← lookupName getRecommendedJobsLocals "st"
  pure (ranked.take max_results)

/-! ### Agentic RAG service (`agentic_rag_service.py`) -/

/-- `route_query`'s decision logic on the router LLM's response text
(`.strip().lower()` then substring checks). -/
def routeDecision (respContent : String) : String :=
  let answer := pyLower (pyStrip respContent)
  if substrB "project" answer && substrB "resume" answer then "both"
  else if substrB "project" answer then "project"
  else "resume"

/-- Whether `re.search(r'\{[\s\S]*\}', text)` succeeds: some `'\x7b'` is
followed (strictly later) by some `'\x7d'`. -/
def hasBraceBlockL : List Char → Bool
  | [] => false
  | c :: rest => (c == '{' && rest.contains '}') || hasBraceBlockL rest

/-- Keep everything up to and including the last `'\x7d'`. -/
def takeToLastRBrace (cs : List Char) : List Char :=
  (cs.reverse.dropWhile (fun c => c != '}')).reverse

/-- The match of `re.search(r'\{[\s\S]*\}', text)`: from the first
opening brace that has a closing brace after it, greedily to the last
closing brace. -/
def braceMatchL : List Char → Option (List Char)
  | [] => none
  | c :: rest =>
      if c == '{' && rest.contains '}' then some (c :: takeToLastRBrace rest)
      else braceMatchL rest

/-- The grader JSON object as far as `grade_answer` reads it
(`result.get("grade", "fail")`, `result.get("feedback", "")`). -/
structure GraderOut where
  grade : Option String
  feedback : Option String

/-- `grade_answer` on the grader LLM's response `text`, with `json.loads`
abstracted as the `jloads` oracle (`none` = raised). -/
def gradeAnswer (jloads : String → Option GraderOut) (text : String) :
    Bool × String :=
  match braceMatchL text.toList with
  | some block =>
      match jloads (String.mk block) with
      | some r => ((r.grade.getD "fail") == "pass", r.feedback.getD "")
      | none => (false, "Invalid grader output")
  | none => (false, "Could not parse grader response.")

/-- Oracles for one `agentic_rag_pipeline` run: the router LLM's response,
the retrieval/generation result per routing decision, the grader LLM's
response, the `json.loads` outcome, and the correction LLM's response per
correction prompt. -/
structure RagEnv where
  routerResp : String
  retrieve : String → String
  graderResp : String
  jloads : String → Option GraderOut
  correctionResp : String → String

/-- Observable outcome of one pipeline run: the returned answer, the
correction prompts issued, and how many grading calls were made. -/
structure RagRun where
  answer : String
  correctionPrompts : List String
  gradeCalls : Nat
  deriving Repr, DecidableEq

/-- `agentic_rag_pipeline`: route, retrieve, grade once; on a failed
grade issue exactly one correction call seeded with the feedback and
return its answer ungraded. -/
def agentic_rag_pipeline (env : RagEnv) : RagRun :=
  let source := routeDecision env.routerResp
  let answer := env.retrieve source
  let g := gradeAnswer env.jloads env.graderResp
  if g.1 then { answer := answer, correctionPrompts := [], gradeCalls := 1 }
  else
    let cp := "Your last answer was graded as insufficient because: "
      ++ g.2 ++ ". Please correct it."
    { answer := env.correctionResp cp
      correctionPrompts := [cp]
      gradeCalls := 1 }

/-! ### Named concrete inputs used in the specification's scenarios -/

/-- Descending comparison on scored jobs (the sort order of
`rank_jobs_by_relevance`). -/
def scoreGE (a b : ScoredJob) : Prop :=
  b.relevance_score ≤ a.relevance_score

/-- Does a (lowercased) project title hit any of the three inference
keyword groups? -/
def titleGroupMatch (t : String) : Bool :=
  ["ml", "machine learning", "data"].any (fun x => substrB x t) ||
  ["ai", "nlp", "rag", "llm", "langchain"].any (fun x => substrB x t) ||
  ["full stack", "backend", "web"].any (fun x => substrB x t)

/-- Scenario profile with skills `{"python", "docker"}`. -/
def scenarioProfile : Profile :=
  { skills := ["python", "docker"]
    experience_years := 0
    education_level := ""
    preferred_locations := ["Remote", "India"]
    job_titles := [] }

/-- Scenario posting whose text is
`"Backend Python Developer using Docker and Kubernetes"`. -/
def scenarioJob : Job :=
  { title := "Backend Python Developer using Docker and Kubernetes"
    company := "Acme"
    location := "Remote"
    description := ""
    apply_link := ""
    posted_date := ""
    source := "JSearch" }

/-- First of two postings sharing the dedup key `("engineer", "acme")`. -/
def dupJobA : Job :=
  { title := "Engineer", company := "Acme", location := "X"
    description := "first description", apply_link := "a.example"
    posted_date := "", source := "JSearch" }

/-- Second posting with the same key but a different description and
apply link. -/
def dupJobB : Job :=
  { title := "ENGINEER", company := "acme", location := "Y"
    description := "second, different description", apply_link := "b.example"
    posted_date := "", source := "Adzuna" }

/-- A concrete RAG oracle environment whose grader response carries no
brace-delimited block. -/
def ragEnvNoBraces : RagEnv :=
  { routerResp := "resume"
    retrieve := fun _ => "first answer"
    graderResp := "FAIL - the answer is incomplete"
    jloads := fun _ => none
    correctionResp := fun p => "corrected: " ++ p }

/-! ## Theorems -/

theorem insertDesc_perm (x : ScoredJob) (l : List ScoredJob) :
    List.Perm (insertDesc x l) (x :: l) := by
  induction l with
  | nil => simp [insertDesc]
  | cons y ys ih =>
      by_cases h : y.relevance_score ≤ x.relevance_score
      · simp [insertDesc, h]
      · simp only [insertDesc, if_neg h]
        exact (ih.cons y).trans (List.Perm.swap x y ys)

theorem sortDesc_perm (l : List ScoredJob) : List.Perm (sortDesc l) l := by
  induction l with
  | nil => simp [sortDesc]
  | cons x xs ih => exact (insertDesc_perm x (sortDesc xs)).trans (ih.cons x)

theorem sorted_insertDesc {l : List ScoredJob} (x : ScoredJob)
    (hl : List.Sorted scoreGE l) : List.Sorted scoreGE (insertDesc x l) := by
  induction l with
  | nil => simp [insertDesc, List.sorted_singleton]
  | cons y ys ih =>
      by_cases h : y.relevance_score ≤ x.relevance_score
      · simp only [insertDesc, if_pos h]
        refine List.sorted_cons.mpr ⟨?_, hl⟩
        intro z hz
        rcases List.mem_cons.mp hz with rfl | hz
        · exact h
        · exact le_trans (List.rel_of_sorted_cons hl z hz) h
      · simp only [insertDesc, if_neg h]
        have hys : List.Sorted scoreGE ys := hl.tail
        refine List.sorted_cons.mpr ⟨?_, ih hys⟩
        intro z hz
        have hz' : z ∈ x :: ys := (insertDesc_perm x ys).mem_iff.mp hz
        rcases List.mem_cons.mp hz' with hzx | hzy
        · rw [hzx]
          exact le_of_not_le h
        · exact List.rel_of_sorted_cons hl z hzy

theorem sorted_sortDesc (l : List ScoredJob) : List.Sorted scoreGE (sortDesc l) := by
  induction l with
  | nil => simp [sortDesc, List.sorted_nil]
  | cons x xs ih => exact sorted_insertDesc x ih

theorem filter_insertDesc (s : Nat) (x : ScoredJob) (l : List ScoredJob) :
    (insertDesc x l).filter (fun a => a.relevance_score == s) =
      if x.relevance_score == s then
        x :: l.filter (fun a => a.relevance_score == s)
      else l.filter (fun a => a.relevance_score == s) := by
  induction l with
  | nil =>
      by_cases hx : x.relevance_score = s <;>
        simp [insertDesc, List.filter_cons, hx]
  | cons y ys ih =>
      by_cases h : y.relevance_score ≤ x.relevance_score
      · rw [show insertDesc x (y :: ys) = x :: y :: ys by
          simp [insertDesc, if_pos h]]
        by_cases hx : x.relevance_score = s <;>
        by_cases hy : y.relevance_score = s <;>
          simp [List.filter_cons, hx, hy]
      · rw [show insertDesc x (y :: ys) = y :: insertDesc x ys by
          simp [insertDesc, if_neg h]]
        by_cases hx : x.relevance_score = s
        · have hy : ¬ (y.relevance_score = s) := fun hy =>
            h (le_of_eq (hy.trans hx.symm))
          simp [List.filter_cons, hx, hy, ih]
        · by_cases hy : y.relevance_score = s <;>
            simp [List.filter_cons, hx, hy, ih]

theorem filter_sortDesc (s : Nat) (l : List ScoredJob) :
    (sortDesc l).filter (fun a => a.relevance_score == s) =
      l.filter (fun a => a.relevance_score == s) := by
  induction l with
  | nil => rfl
  | cons x xs ih =>
      by_cases hx : x.relevance_score = s <;>
        simp [sortDesc, filter_insertDesc, List.filter_cons, hx, ih]

/-- C1: `rank_jobs_by_relevance` returns the scored records in descending
order of `relevance_score`, as a permutation of the scored input, and the
sort is stable: for every score value, the records carrying that score
appear in the output exactly in their input order. -/
theorem rank_sorted_descending_stable (jobs : List Job) (profile : Profile) :
    List.Sorted scoreGE (rank_jobs_by_relevance jobs profile) ∧
    List.Perm (rank_jobs_by_relevance jobs profile) (jobs.map (scoreJob profile)) ∧
    ∀ s : Nat,
      (rank_jobs_by_relevance jobs profile).filter
          (fun a => a.relevance_score == s) =
        (jobs.map (scoreJob profile)).filter (fun a => a.relevance_score == s) :=
  ⟨sorted_sortDesc _, sortDesc_perm _, fun s => filter_sortDesc s _⟩

/-- C7: ranking never drops or adds a record — the output length equals
the input length. -/
theorem rank_preserves_length (jobs : List Job) (profile : Profile) :
    (rank_jobs_by_relevance jobs profile).length = jobs.length := by
  have h := (sortDesc_perm (jobs.map (scoreJob profile))).length_eq
  simpa [rank_jobs_by_relevance] using h

theorem dedupeAux_sublist (seen : List (String × String)) (jobs : List Job) :
    (dedupeAux seen jobs).Sublist jobs := by
  induction jobs generalizing seen with
  | nil => simp [dedupeAux]
  | cons j js ih =>
      by_cases h : dedupeKey j ∈ seen
      · simp only [dedupeAux, if_pos h]
        exact (ih seen).cons j
      · simp only [dedupeAux, if_neg h]
        exact (ih _).cons₂ j

theorem mem_dedupeAux_first (jobs : List Job) :
    ∀ (seen : List (String × String)), ∀ j' ∈ dedupeAux seen jobs,
      dedupeKey j' ∉ seen ∧
        jobs.find? (fun j => dedupeKey j == dedupeKey j') = some j' := by
  induction jobs with
  | nil => intro seen j' h; simp [dedupeAux] at h
  | cons j js ih =>
      intro seen j' h
      by_cases hk : dedupeKey j ∈ seen
      · rw [show dedupeAux seen (j :: js) = dedupeAux seen js by
          simp [dedupeAux, if_pos hk]] at h
        obtain ⟨hns, hfind⟩ := ih seen j' h
        refine ⟨hns, ?_⟩
        have hne : (dedupeKey j == dedupeKey j') = false := by
          refine beq_eq_false_iff_ne.mpr ?_
          intro he
          exact hns (he ▸ hk)
        simp [List.find?, hne, hfind]
      · rw [show dedupeAux seen (j :: js) = j :: dedupeAux (dedupeKey j :: seen) js by
          simp [dedupeAux, if_neg hk]] at h
        rcases List.mem_cons.mp h with rfl | hmem
        · refine ⟨hk, ?_⟩
          simp [List.find?]
        · obtain ⟨hns, hfind⟩ := ih _ j' hmem
          have hne : dedupeKey j ≠ dedupeKey j' := fun he =>
            hns (by rw [← he]; exact List.mem_cons_self _ _)
          have hns' : dedupeKey j' ∉ seen := fun hc =>
            hns (List.mem_cons_of_mem _ hc)
          refine ⟨hns', ?_⟩
          simp [List.find?, beq_eq_false_iff_ne.mpr hne, hfind]

theorem dedupeAux_keys_nodup (jobs : List Job) :
    ∀ (seen : List (String × String)),
      ((dedupeAux seen jobs).map dedupeKey).Nodup ∧
        ∀ k ∈ seen, k ∉ (dedupeAux seen jobs).map dedupeKey := by
  induction jobs with
  | nil => intro seen; simp [dedupeAux]
  | cons j js ih =>
      intro seen
      by_cases hk : dedupeKey j ∈ seen
      · rw [show dedupeAux seen (j :: js) = dedupeAux seen js by
          simp [dedupeAux, if_pos hk]]
        exact ih seen
      · rw [show dedupeAux seen (j :: js) = j :: dedupeAux (dedupeKey j :: seen) js by
          simp [dedupeAux, if_neg hk]]
        obtain ⟨hnd, hdisj⟩ := ih (dedupeKey j :: seen)
        rw [List.map_cons]
        constructor
        · exact List.nodup_cons.mpr ⟨hdisj _ (List.mem_cons_self _ _), hnd⟩
        · intro k hks hmem
          rcases List.mem_cons.mp hmem with he | hm
          · exact hk (he ▸ hks)
          · exact hdisj k (List.mem_cons_of_mem _ hks) hm

theorem dedupeAux_covers (jobs : List Job) :
    ∀ (seen : List (String × String)), ∀ j ∈ jobs,
      dedupeKey j ∈ seen ∨
        ∃ j' ∈ dedupeAux seen jobs, dedupeKey j' = dedupeKey j := by
  induction jobs with
  | nil => intro seen j hj; simp at hj
  | cons hd js ih =>
      intro seen j hj
      rcases List.mem_cons.mp hj with rfl | hmem
      · by_cases hk : dedupeKey j ∈ seen
        · exact Or.inl hk
        · right
          refine ⟨j, ?_, rfl⟩
          rw [show dedupeAux seen (j :: js) = j :: dedupeAux (dedupeKey j :: seen) js by
            simp [dedupeAux, if_neg hk]]
          exact List.mem_cons_self _ _
      · by_cases hk : dedupeKey hd ∈ seen
        · rcases ih seen j hmem with hin | ⟨j', hj', he⟩
          · exact Or.inl hin
          · right
            refine ⟨j', ?_, he⟩
            rw [show dedupeAux seen (hd :: js) = dedupeAux seen js by
              simp [dedupeAux, if_pos hk]]
            exact hj'
        · rcases ih (dedupeKey hd :: seen) j hmem with hin | ⟨j', hj', he⟩
          · rcases List.mem_cons.mp hin with he2 | hs
            · right
              refine ⟨hd, ?_, he2.symm⟩
              rw [show dedupeAux seen (hd :: js) =
                  hd :: dedupeAux (dedupeKey hd :: seen) js by
                simp [dedupeAux, if_neg hk]]
              exact List.mem_cons_self _ _
            · exact Or.inl hs
          · right
            refine ⟨j', ?_, he⟩
            rw [show dedupeAux seen (hd :: js) =
                hd :: dedupeAux (dedupeKey hd :: seen) js by
              simp [dedupeAux, if_neg hk]]
            exact List.mem_cons_of_mem _ hj'

/-- C2: deduplication keeps, for each `(lowercased title, lowercased
company)` key, exactly the first posting seen with that key, in input
order: the output is a subsequence of the input with pairwise-distinct
keys, every input key is represented, and each survivor is the first
input posting carrying its key.  In particular, of the two concrete
postings sharing a key but differing in description, only the first
survives. -/
theorem dedupe_first_wins (jobs : List Job) :
    (dedupeJobs jobs).Sublist jobs ∧
    ((dedupeJobs jobs).map dedupeKey).Nodup ∧
    (∀ j ∈ jobs, ∃ j' ∈ dedupeJobs jobs, dedupeKey j' = dedupeKey j) ∧
    (∀ j' ∈ dedupeJobs jobs,
      jobs.find? (fun j => dedupeKey j == dedupeKey j') = some j') ∧
    dedupeJobs [dupJobA, dupJobB] = [dupJobA] := by
  refine ⟨dedupeAux_sublist [] jobs, (dedupeAux_keys_nodup jobs []).1, ?_, ?_, ?_⟩
  · intro j hj
    rcases dedupeAux_covers jobs [] j hj with hin | h
    · simp at hin
    · exact h
  · intro j' hj'
    exact (mem_dedupeAux_first jobs [] j' hj').2
  · decide

/-- C2 witness: instantiating the first-wins conjunct on the concrete
duplicate pair shows the survivor is the first-seen posting. -/
theorem dedupe_first_wins_witness :
    [dupJobA, dupJobB].find? (fun j => dedupeKey j == dedupeKey dupJobA) =
      some dupJobA :=
  (dedupe_first_wins [dupJobA, dupJobB]).2.2.2.1 dupJobA (by decide)

theorem fuzzyScan_spec (text : String) (tbl : List (String × List String)) :
    (fuzzyScan text tbl).1 =
      (tbl.filter (fun g => g.2.any (fun w => substrB w text))).map Prod.fst ∧
    (fuzzyScan text tbl).2 =
      5 * (tbl.filter (fun g => g.2.any (fun w => substrB w text))).length := by
  induction tbl with
  | nil => simp [fuzzyScan]
  | cons g gs ih =>
      obtain ⟨k, ws⟩ := g
      obtain ⟨ih1, ih2⟩ := ih
      by_cases hg : ws.any (fun w => substrB w text) = true
      · simp only [fuzzyScan, hg, if_pos, List.filter_cons]
        constructor
        · simp [hg, ih1]
        · simp [hg, ih2, Nat.mul_succ]
      · simp only [fuzzyScan, List.filter_cons]
        constructor
        · simp [hg, ih1]
        · simp [hg, ih2]

/-- C3: the fuzzy/synonym signal contributes exactly 5 points per concept
group with at least one synonym occurring in the search text (however
many of its synonyms occur), the matched concept keys (not the raw
synonyms) land in `matched_skills`, and on the scenario profile
`{python, docker}` and the scenario job text the final score is at least
15 with both `"python"` and `"docker"` among the matched skills. -/
theorem fuzzy_synonym_scoring (profile : Profile) (job : Job) :
    (scoreJob profile job).relevance_score =
        10 * (profile.skills.dedup.filter (fun s =>
            substrB s (pyLower (job.title ++ " " ++ job.description)))).length
          + 5 * (synonymsTable.filter (fun g => g.2.any (fun w =>
              substrB w (pyLower (job.title ++ " " ++ job.description))))).length
          + 15 * (profile.job_titles.filter (fun t =>
              substrB (pyLower t) (pyLower job.title))).length ∧
    (∀ g ∈ synonymsTable,
        g.2.any (fun w =>
          substrB w (pyLower (job.title ++ " " ++ job.description))) = true →
        g.1 ∈ (scoreJob profile job).matched_skills) ∧
    15 ≤ (scoreJob scenarioProfile scenarioJob).relevance_score ∧
    "python" ∈ (scoreJob scenarioProfile scenarioJob).matched_skills ∧
    "docker" ∈ (scoreJob scenarioProfile scenarioJob).matched_skills := by
  refine ⟨?_, ?_, by decide, by decide, by decide⟩
  · simp only [scoreJob,
      (fuzzyScan_spec (pyLower (job.title ++ " " ++ job.description))
        synonymsTable).2]
  · intro g hg hmatch
    simp only [scoreJob, List.mem_dedup, List.mem_append]
    right
    rw [(fuzzyScan_spec (pyLower (job.title ++ " " ++ job.description))
      synonymsTable).1]
    exact List.mem_map_of_mem Prod.fst (List.mem_filter.mpr ⟨hg, hmatch⟩)

/-- C3 witness: on the scenario inputs the `"docker"` concept group has a
matching synonym, so `"docker"` is recorded among the matched skills. -/
theorem fuzzy_synonym_scoring_witness :
    "docker" ∈ (scoreJob scenarioProfile scenarioJob).matched_skills :=
  (fuzzy_synonym_scoring scenarioProfile scenarioJob).2.1
    ("docker", ["docker", "container", "kubernetes", "k8s"])
    (by decide) (by decide)

/-- C4: the routing decision on the (stripped, lowercased) router
response is `"both"` when both markers occur, `"project"` when only
`"project"` occurs, `"resume"` otherwise — hence always one of exactly
those three strings. -/
theorem route_decision_cases (respContent : String) :
    (substrB "project" (pyLower (pyStrip respContent)) = true →
      substrB "resume" (pyLower (pyStrip respContent)) = true →
      routeDecision respContent = "both") ∧
    (substrB "project" (pyLower (pyStrip respContent)) = true →
      substrB "resume" (pyLower (pyStrip respContent)) = false →
      routeDecision respContent = "project") ∧
    (substrB "project" (pyLower (pyStrip respContent)) = false →
      routeDecision respContent = "resume") ∧
    (routeDecision respContent = "resume" ∨
      routeDecision respContent = "project" ∨
      routeDecision respContent = "both") := by
  by_cases hp : substrB "project" (pyLower (pyStrip respContent)) = true <;>
  by_cases hr : substrB "resume" (pyLower (pyStrip respContent)) = true <;>
    simp [routeDecision, hp, hr]

/-- C4 witness: a router response containing both markers routes to
`"both"`. -/
theorem route_decision_cases_witness :
    routeDecision "  Use both the PROJECT index and the RESUME index. " =
      "both" :=
  (route_decision_cases
      "  Use both the PROJECT index and the RESUME index. ").1
    (by decide) (by decide)

theorem braceMatchL_eq_none {cs : List Char}
    (h : hasBraceBlockL cs = false) : braceMatchL cs = none := by
  induction cs with
  | nil => rfl
  | cons c rest ih =>
      simp only [hasBraceBlockL, Bool.or_eq_false_iff] at h
      have he : braceMatchL (c :: rest) =
          if c == '{' && rest.contains '}' then
            some (c :: takeToLastRBrace rest)
          else braceMatchL rest := rfl
      rw [he]
      simp only [h.1]
      simp [ih h.2]

/-- C5: when the grader response holds no brace-delimited block, grading
returns exactly `(false, "Could not parse grader response.")` without
raising, and the pipeline then makes exactly one corrective generation
call seeded with that feedback, returns its answer, and performs no
second grading pass. -/
theorem grader_unparseable_retry_once (env : RagEnv)
    (h : hasBraceBlockL env.graderResp.toList = false) :
    gradeAnswer env.jloads env.graderResp =
      (false, "Could not parse grader response.") ∧
    agentic_rag_pipeline env =
      { answer := env.correctionResp
          "Your last answer was graded as insufficient because: Could not parse grader response.. Please correct it."
        correctionPrompts :=
          ["Your last answer was graded as insufficient because: Could not parse grader response.. Please correct it."]
        gradeCalls := 1 } := by
  have hg : gradeAnswer env.jloads env.graderResp =
      (false, "Could not parse grader response.") := by
    unfold gradeAnswer
    rw [braceMatchL_eq_none h]
  refine ⟨hg, ?_⟩
  unfold agentic_rag_pipeline
  rw [hg]
  rfl

/-- C5 witness: a concrete grader response with no braces yields the
diagnostic fail verdict. -/
theorem grader_unparseable_retry_once_witness :
    gradeAnswer ragEnvNoBraces.jloads ragEnvNoBraces.graderResp =
      (false, "Could not parse grader response.") :=
  (grader_unparseable_retry_once ragEnvNoBraces (by decide)).1

/-- C6 counterexample: an unreadable (unparseable) cache file does not
yield an empty result — `json.load` raises, so `load_jobs_cache` does not
return at all. -/
theorem load_unreadable_raises :
    load_jobs_cache CacheRead.unreadable 0 24 =
      Except.error "json.load raised" ∧
    (load_jobs_cache CacheRead.unreadable 0 24).isOk = false := by
  exact ⟨rfl, rfl⟩

/-- C6 (amended): within the freshness window a load returns the saved
jobs field-for-field; strictly past the window it returns empty (in
particular 25 hours after a save with a 24-hour window); a missing cache
file returns empty without raising; but an *unreadable* cache file makes
the load raise instead of returning empty. -/
theorem cache_load_behavior (jobs : List ScoredJob) (saveT nowT maxAge : Int) :
    (nowT - saveT ≤ 3600 * maxAge →
      load_jobs_cache (CacheRead.content (save_jobs_cache saveT jobs)) nowT
          maxAge = Except.ok jobs) ∧
    (3600 * maxAge < nowT - saveT →
      load_jobs_cache (CacheRead.content (save_jobs_cache saveT jobs)) nowT
          maxAge = Except.ok []) ∧
    load_jobs_cache CacheRead.missing nowT maxAge = Except.ok [] ∧
    (load_jobs_cache CacheRead.unreadable nowT maxAge).isOk = false ∧
    load_jobs_cache (CacheRead.content (save_jobs_cache 0 jobs)) (25 * 3600)
        24 = Except.ok [] := by
  refine ⟨?_, ?_, rfl, rfl, ?_⟩
  · intro h
    simp [load_jobs_cache, save_jobs_cache, not_lt.mpr h]
  · intro h
    simp [load_jobs_cache, save_jobs_cache, h]
  · simp [load_jobs_cache, save_jobs_cache]

/-- C6 witness: a fresh load (zero elapsed time, 24-hour window) returns
the saved jobs unchanged. -/
theorem cache_load_behavior_witness :
    load_jobs_cache (CacheRead.content (save_jobs_cache 0 [])) 0 24 =
      Except.ok [] :=
  (cache_load_behavior [] 0 0 24).1 (by decide)

/-- C8: each adapter maps any transport/parse failure to the empty list
instead of raising, and a credential-gated adapter with missing (falsy)
credentials returns empty with no network call attempted. -/
theorem adapters_contain_failures (rapidKey adzId adzKey : Option String)
    (kw e : String) (fj : Except String (List JSearchRawJob))
    (fa : Except String (List AdzunaRawJob)) :
    (pyFalsy rapidKey = true → search_jobs_jsearch rapidKey fj = ([], false)) ∧
    (search_jobs_jsearch rapidKey (Except.error e)).1 = [] ∧
    ((pyFalsy adzId || pyFalsy adzKey) = true →
      search_jobs_adzuna adzId adzKey fa = ([], false)) ∧
    (search_jobs_adzuna adzId adzKey (Except.error e)).1 = [] ∧
    search_jobs_remoteok kw (Except.error e) = [] := by
  refine ⟨?_, ?_, ?_, ?_, rfl⟩
  · intro h
    simp [search_jobs_jsearch, h]
  · by_cases h : pyFalsy rapidKey = true <;>
      simp [search_jobs_jsearch, h]
  · intro h
    simp [search_jobs_adzuna, h]
  · by_cases h : (pyFalsy adzId || pyFalsy adzKey) = true <;>
      simp [search_jobs_adzuna, h]

/-- C8 witness: with no RapidAPI key, JSearch returns empty without
attempting the call. -/
theorem adapters_contain_failures_witness :
    search_jobs_jsearch none (Except.ok []) = ([], false) :=
  (adapters_contain_failures none none none "x" "err" (Except.ok [])
      (Except.ok [])).1 (by decide)

theorem inferTitlesStep_id (acc : List String) (p : UDProject)
    (h : titleGroupMatch (pyLower p.title) = false) :
    inferTitlesStep acc p = acc := by
  unfold titleGroupMatch at h
  simp only [Bool.or_eq_false_iff] at h
  obtain ⟨⟨h1, h2⟩, h3⟩ := h
  unfold inferTitlesStep
  rw [if_neg (by rw [h3]; simp), if_neg (by rw [h2]; simp),
    if_neg (by rw [h1]; simp)]

theorem foldl_inferTitlesStep_const (ps : List UDProject) :
    ∀ acc, (∀ p ∈ ps, titleGroupMatch (pyLower p.title) = false) →
      ps.foldl inferTitlesStep acc = acc := by
  induction ps with
  | nil => intro acc _; rfl
  | cons p ps ih =>
      intro acc h
      rw [List.foldl_cons, inferTitlesStep_id acc p (h p (List.mem_cons_self _ _))]
      exact ih acc fun q hq => h q (List.mem_cons_of_mem _ hq)

theorem extract_job_titles_eq (u : UserData) :
    (extract_user_profile u).job_titles =
      if (inferredTitles u.projects).isEmpty then
        ["Software Engineer", "AI Engineer"]
      else inferredTitles u.projects := rfl

/-- C9: the extracted profile's job-title list is never empty: either
some project title hits one of the three category keyword groups, or the
fixed fallback pair is used. -/
theorem extract_profile_titles_nonempty (u : UserData) :
    0 < (extract_user_profile u).job_titles.length ∧
    (u.projects.any (fun p => titleGroupMatch (pyLower p.title)) = true ∨
      (extract_user_profile u).job_titles =
        ["Software Engineer", "AI Engineer"]) := by
  constructor
  · rw [extract_job_titles_eq]
    by_cases h : (inferredTitles u.projects).isEmpty
    · simp [h]
    · rw [if_neg h]
      have : inferredTitles u.projects ≠ [] := by
        intro he
        rw [he] at h
        exact h rfl
      exact List.length_pos.mpr this
  · by_cases hm : u.projects.any (fun p => titleGroupMatch (pyLower p.title)) = true
    · exact Or.inl hm
    · right
      have hall : ∀ p ∈ u.projects, titleGroupMatch (pyLower p.title) = false := by
        intro p hp
        cases hb : titleGroupMatch (pyLower p.title) with
        | false => rfl
        | true => exact absurd (List.any_eq_true.mpr ⟨p, hp, hb⟩) hm
      have h0 : inferredTitles u.projects = [] :=
        foldl_inferTitlesStep_const u.projects [] hall
      rw [extract_job_titles_eq, h0]
      rfl

/-- C10: `get_recommended_jobs` never returns normally — after the cache
save it evaluates `st.write(...)`, and `st` resolves against no local,
module, or builtin name, so every call raises `NameError` instead of
returning the ranked jobs. -/
theorem get_recommended_jobs_raises_name_error (env : FetchEnv) (now : Int)
    (user_data : UserData) (max_results : Nat) :
    get_recommended_jobs env now user_data max_results =
      Except.error (PyError.nameError "st") := rfl
